import Mathlib

/-!
Shallow embedding of the global state container of the repository
my-react-store, whose core lives in the file embedded here as
src/unnamed/part_003 (the useStore.js module shown verbatim in the README):
createStore, getState, setState, subscribe with its returned unsubscribe
closure, the useStore hook, StoreProvider and useGlobalStore, together with
the concrete store of src/src/store/store.js.

Modelling decisions, each taken from the source:
- Listener callbacks are identified by natural-number identifiers; the JS
  Set of listeners iterates in insertion order and holds no duplicate
  reference, so it is embedded as an insertion-ordered list of identifiers
  (duplicate-freedom is List.Nodup, which holds for every reachable store
  and is carried as a hypothesis where a theorem needs it).
- setState's argument is dispatched by a typeof check in the source; the
  two branches are the two constructors of RUpd.
- A notification pass is recorded as the list of events (listener, argument
  passed), in the order the forEach visits the Set.
- Reentrant setState calls issued by a listener during a notification pass
  are modelled separately by a fuel-indexed engine (runSetState below),
  because in the source the arrow function inside forEach reads the mutable
  storeState variable at each iteration.
-/

namespace ReactStore

variable {σ α : Type}

/-- Argument accepted by setState in the source: either a literal
replacement state or an updater function, the two sides of the
typeof newState check. -/
inductive RUpd (σ : Type) where
  | value (s : σ)
  | fn (f : σ → σ)

/-- Evaluation of the typeof dispatch in setState: a function argument is
applied to the current state, any other argument replaces the state
wholesale. -/
def applyUpd (u : RUpd σ) (s : σ) : σ :=
  match u with
  | RUpd.value v => v
  | RUpd.fn f => f s

/-- Closure state of one store created by createStore: the mutable
storeState variable and the listeners Set, the latter embedded as an
insertion-ordered duplicate-free list of listener identifiers. -/
structure Store (σ : Type) where
  storeState : σ
  listeners : List Nat
deriving DecidableEq

/-- createStore seeds a fresh store with initialState and an empty
listener Set. -/
def createStore (initialState : σ) : Store σ :=
  Store.mk initialState []

/-- getState returns the current state synchronously, with no side
effect. -/
def getState (st : Store σ) : σ :=
  st.storeState

/-- subscribe adds the listener to the Set; Set.add is a no-op when the
identical reference is already a member, and otherwise appends it in
insertion order. -/
def subscribe (st : Store σ) (l : Nat) : Store σ :=
  if l ∈ st.listeners then st else Store.mk st.storeState (st.listeners ++ [l])

/-- unsubscribe is the zero-argument closure returned by subscribe: it
deletes the listener from the Set (Set.delete, a no-op when absent). -/
def unsubscribe (st : Store σ) (l : Nat) : Store σ :=
  Store.mk st.storeState (st.listeners.erase l)

/-- setState computes the next state by the typeof dispatch, assigns it as
the new current state, then notifies every registered listener in
insertion order with the new state. The second component is the list of
notification events (listener, argument) of this pass; this definition
covers listeners that do not themselves write the store during the pass
(the reentrant engine below covers the rest). -/
def setState (st : Store σ) (u : RUpd σ) : Store σ × List (Nat × σ) :=
  (Store.mk (applyUpd u st.storeState) st.listeners,
    st.listeners.map (fun l => (l, applyUpd u st.storeState)))

/-- Operations a client can perform on a store handle. -/
inductive Op (σ : Type) where
  | set (u : RUpd σ)
  | sub (l : Nat)
  | unsub (l : Nat)

/-- step runs one operation, returning the new store and the notification
events it produced (only setState notifies). -/
def step (st : Store σ) (op : Op σ) : Store σ × List (Nat × σ) :=
  match op with
  | Op.set u => setState st u
  | Op.sub l => (subscribe st l, [])
  | Op.unsub l => (unsubscribe st l, [])

/-- run executes a sequence of operations from a store, concatenating the
notification events in execution order. -/
def run (st : Store σ) : List (Op σ) → Store σ × List (Nat × σ)
  | [] => (st, [])
  | op :: ops =>
      ((run (step st op).1 ops).1, (step st op).2 ++ (run (step st op).1 ops).2)

/-- JsError models a thrown JavaScript Error value, carrying its message. -/
structure JsError where
  message : String
deriving DecidableEq

/-- Message of the single throw site of the module. -/
def configMessage : String :=
  "useGlobalStore must be used within a StoreProvider"

/-- ConfigurationError is the one error the system raises: the Error thrown
by useGlobalStore when no store is in scope (the spec's ConfigurationError,
its "no store in scope" condition). -/
def ConfigurationError : JsError :=
  JsError.mk configMessage

/-- useStoreHook models the useStore hook of a store at mount time: the
hook seeds its local state with selector applied to the current
storeState (and its effect re-runs the selector on every later write);
its synchronous result is the selected slice of the current state. -/
def useStoreHook (st : Store σ) (selector : σ → α) : α :=
  selector (getState st)

/-- StoreProvider establishes the store as the StoreContext value for the
tree below it; the context defaults to null (none) outside any
provider. -/
def StoreProvider (store : Store σ) : Option (Store σ) :=
  some store

/-- useGlobalStore reads the store from StoreContext; with no provider in
scope the context holds null and the hook throws the Error with
configMessage, otherwise it returns the store's useStore result. -/
def useGlobalStore (ctx : Option (Store σ)) (selector : σ → α) :
    Except JsError α :=
  match ctx with
  | none => Except.error ConfigurationError
  | some st => Except.ok (useStoreHook st selector)

/-!
Reentrant-notification engine. In the source, setState runs
listeners.forEach with an arrow function that reads the mutable storeState
variable at each iteration, so a setState issued by a listener during the
pass changes the argument the remaining listeners of that same pass
receive. The engine makes that explicit: beh gives, for each listener and
each argument it is invoked with, the list of setState calls the listener
issues before returning; the listener set L is fixed during execution
(no listener subscribes or unsubscribes here, matching the claims this
engine settles). fuel bounds the nesting depth of reentrant setState
calls: a call at depth beyond the fuel does nothing, so results are
faithful whenever fuel exceeds the actual nesting depth of the scenario.
runSetState returns the final storeState, the events (listener, argument)
of its own top-level pass, and all events in execution order.
-/

/-- runCallsFrom performs a listener's reentrant setState calls in order,
threading the state; next is the engine at the remaining fuel. It returns
the final state and all events the calls produced. -/
def runCallsFrom (next : σ → RUpd σ → σ × List (Nat × σ) × List (Nat × σ)) :
    List (RUpd σ) → σ → σ × List (Nat × σ)
  | [], s => (s, [])
  | u :: us, s =>
      ((runCallsFrom next us (next s u).1).1,
        (next s u).2.2 ++ (runCallsFrom next us (next s u).1).2)

/-- notifyFrom is one forEach pass over the listener list: each listener is
invoked with the storeState current at its turn, then its reentrant calls
run, then the pass continues with the state they left behind. -/
def notifyFrom (next : σ → RUpd σ → σ × List (Nat × σ) × List (Nat × σ))
    (beh : Nat → σ → List (RUpd σ)) :
    List Nat → σ → σ × List (Nat × σ) × List (Nat × σ)
  | [], s => (s, [], [])
  | l :: rest, s =>
      ((notifyFrom next beh rest (runCallsFrom next (beh l s) s).1).1,
        (l, s) ::
          (notifyFrom next beh rest (runCallsFrom next (beh l s) s).1).2.1,
        (l, s) ::
          ((runCallsFrom next (beh l s) s).2 ++
            (notifyFrom next beh rest (runCallsFrom next (beh l s) s).1).2.2))

/-- runSetState is one setState call under the reentrant model: it commits
the next state, then runs a forEach pass over the fixed listener list L,
where each listener may issue further setState calls as given by beh. -/
def runSetState (beh : Nat → σ → List (RUpd σ)) (L : List Nat) :
    Nat → σ → RUpd σ → σ × List (Nat × σ) × List (Nat × σ)
  | 0, s, _ => (s, [], [])
  | fuel + 1, s, u => notifyFrom (runSetState beh L fuel) beh L (applyUpd u s)

/-- noReentry is the listener behaviour in which no listener writes the
store during notification. -/
def noReentry (σ : Type) : Nat → σ → List (RUpd σ) :=
  fun _ _ => []

/-- behReentrant is a concrete listener behaviour over Nat states:
listener 0, when invoked with state 1, reentrantly calls setState(2);
every other invocation returns without writing. -/
def behReentrant : Nat → Nat → List (RUpd Nat) :=
  fun l s => if l = 0 ∧ s = 1 then [RUpd.value 2] else []

/-- CountState embeds the application state object of store.js, which has
the single field count (a number, here Nat since the app only increments
from 0 and resets to 0). -/
structure CountState where
  count : Nat
deriving DecidableEq

/-- initialState of src/src/store/store.js: the object with count 0. -/
def initialState : CountState :=
  CountState.mk 0

/-- store of src/src/store/store.js: createStore initialState. -/
def store : Store CountState :=
  createStore initialState

/-- incUpdater embeds the Counter component's updater
s => (...s, count: s.count + 1); CountState has count as its only field,
so the spread contributes nothing further. -/
def incUpdater : RUpd CountState :=
  RUpd.fn (fun s => CountState.mk (s.count + 1))

/-!
Helper lemmas shared by the claim theorems.
-/

/-- run distributes over concatenation of operation sequences: the events
of the combined run are the events of the first part followed by the
events of the second part run from the intermediate store. -/
theorem run_append (st : Store σ) (xs ys : List (Op σ)) :
    run st (xs ++ ys) =
      ((run (run st xs).1 ys).1, (run st xs).2 ++ (run (run st xs).1 ys).2) := by
  induction xs generalizing st with
  | nil => simp [run]
  | cons op ops ih => simp [run, ih, List.append_assoc]

/-- Every operation preserves duplicate-freedom of the listener Set. -/
theorem nodup_step (st : Store σ) (op : Op σ) (h : st.listeners.Nodup) :
    (step st op).1.listeners.Nodup := by
  cases op with
  | set u => exact h
  | sub m =>
      by_cases hm : m ∈ st.listeners
      · simpa [step, subscribe, hm] using h
      · simp [step, subscribe, hm, List.nodup_append, h]
  | unsub m => exact h.erase m

/-- Every run preserves duplicate-freedom of the listener Set. -/
theorem nodup_run (st : Store σ) (ops : List (Op σ)) (h : st.listeners.Nodup) :
    (run st ops).1.listeners.Nodup := by
  induction ops generalizing st with
  | nil => exact h
  | cons op ops ih => exact ih (step st op).1 (nodup_step st op h)

/-- A listener outside the Set receives no event from a run that never
re-subscribes it, and stays outside the Set. -/
theorem not_mem_run_events (l : Nat) (ops : List (Op σ)) :
    ∀ st : Store σ, l ∉ st.listeners → Op.sub l ∉ ops →
      (∀ s, (l, s) ∉ (run st ops).2) ∧ l ∉ (run st ops).1.listeners := by
  induction ops with
  | nil =>
      intro st hl _
      exact ⟨fun s hs => by simp [run] at hs, hl⟩
  | cons op ops ih =>
      intro st hl hops
      have hop : Op.sub l ≠ op := fun he => hops (he ▸ List.mem_cons_self _ _)
      have hops' : Op.sub l ∉ ops := fun hm => hops (List.mem_cons_of_mem _ hm)
      have hstep : l ∉ (step st op).1.listeners ∧ ∀ s, (l, s) ∉ (step st op).2 := by
        cases op with
        | set u =>
            refine ⟨hl, fun s hmem => ?_⟩
            simp [step, setState] at hmem
            rcases hmem with ⟨a, ha, hal, _⟩
            exact hl (hal ▸ ha)
        | sub m =>
            have hlm : l ≠ m := fun he => hop (by rw [he])
            refine ⟨?_, fun s hmem => by simp [step] at hmem⟩
            by_cases hm : m ∈ st.listeners
            · simpa [step, subscribe, hm] using hl
            · simp [step, subscribe, hm, hl, hlm]
        | unsub m =>
            refine ⟨?_, fun s hmem => by simp [step] at hmem⟩
            intro hmem
            exact hl (List.mem_of_mem_erase hmem)
      have htail := ih (step st op).1 hstep.1 hops'
      refine ⟨fun s hmem => ?_, htail.2⟩
      rcases List.mem_append.mp hmem with h1 | h2
      · exact hstep.2 s h1
      · exact htail.1 s h2

/-- A notification pass in which no listener writes the store hands every
listener, in order, the state the pass started from, and leaves the state
unchanged. -/
theorem notifyFrom_no_reentry
    (next : σ → RUpd σ → σ × List (Nat × σ) × List (Nat × σ))
    (beh : Nat → σ → List (RUpd σ)) (h : ∀ l s, beh l s = []) :
    ∀ (pass : List Nat) (s : σ),
      notifyFrom next beh pass s =
        (s, pass.map (fun l => (l, s)), pass.map (fun l => (l, s))) := by
  intro pass
  induction pass with
  | nil => intro s; rfl
  | cons l rest ih => intro s; simp [notifyFrom, h, runCallsFrom, ih]

/-- Counting a pair (l, v) among events that all carry the argument v is
counting the listener l among the notified listeners. -/
theorem count_map_pair [DecidableEq σ] (xs : List Nat) (l : Nat) (v : σ) :
    (xs.map (fun x : Nat => (x, v))).count (l, v) = xs.count l := by
  induction xs with
  | nil => rfl
  | cons a as ih => simp [List.count_cons, ih]

/-!
Claim theorems.
-/

/-- C1: after setState(s1) with a non-function argument, getState returns
s1, and the notification pass invokes exactly the listeners subscribed at
the time of the call, in registration order, each exactly once with
argument s1. -/
theorem setState_value_spec [DecidableEq σ] (st : Store σ) (s1 : σ)
    (hnd : st.listeners.Nodup) :
    getState (setState st (RUpd.value s1)).1 = s1 ∧
    (setState st (RUpd.value s1)).2 = st.listeners.map (fun l => (l, s1)) ∧
    ∀ l, l ∈ st.listeners → (setState st (RUpd.value s1)).2.count (l, s1) = 1 := by
  refine ⟨rfl, rfl, fun l hl => ?_⟩
  show (st.listeners.map (fun x : Nat => (x, s1))).count (l, s1) = 1
  rw [count_map_pair]
  exact List.count_eq_one_of_mem hnd hl

/-- Witness for C1 at the store with state 0 and listeners 1 and 2,
writing the value 5. -/
theorem setState_value_spec_witness :
    (Store.mk (0 : Nat) [1, 2]).listeners.Nodup ∧
    getState (setState (Store.mk (0 : Nat) [1, 2]) (RUpd.value 5)).1 = 5 ∧
    (setState (Store.mk (0 : Nat) [1, 2]) (RUpd.value 5)).2 = [(1, 5), (2, 5)] ∧
    (setState (Store.mk (0 : Nat) [1, 2]) (RUpd.value 5)).2.count (1, 5) = 1 := by
  have h := setState_value_spec (Store.mk (0 : Nat) [1, 2]) 5 (by decide)
  exact ⟨by decide, h.1, h.2.1, h.2.2 1 (by decide)⟩

/-- C3: setState with a function argument commits the function applied to
the state getState returned immediately before the call. -/
theorem setState_updater_spec (st : Store σ) (f : σ → σ) :
    getState (setState st (RUpd.fn f)).1 = f (getState st) :=
  rfl

/-- C4: from createStore with count 0 and one listener subscribed before
any write, three increments leave getState at count 3 and invoke the
listener exactly three times with counts 1, 2, 3 in that order. -/
theorem counter_scenario :
    getState (run (subscribe store 0)
        [Op.set incUpdater, Op.set incUpdater, Op.set incUpdater]).1 =
      CountState.mk 3 ∧
    (run (subscribe store 0)
        [Op.set incUpdater, Op.set incUpdater, Op.set incUpdater]).2 =
      [(0, CountState.mk 1), (0, CountState.mk 2), (0, CountState.mk 3)] :=
  ⟨rfl, rfl⟩

/-- C6: useGlobalStore with no enclosing StoreProvider (null context)
raises the ConfigurationError, the module's single throw site; with a
provider in scope it returns the useStore result without raising, for
every selector. -/
theorem useGlobalStore_spec (selector : σ → α) :
    useGlobalStore (none : Option (Store σ)) selector =
      Except.error ConfigurationError ∧
    ∀ st : Store σ,
      useGlobalStore (StoreProvider st) selector =
        Except.ok (useStoreHook st selector) :=
  ⟨rfl, fun _ => rfl⟩

/-- C7: a write whose value (or updater result) equals the current state
still notifies every registered listener with that value; setState runs no
equality or deduplication check. -/
theorem setState_no_dedup (st : Store σ) (u : RUpd σ)
    (h : applyUpd u (getState st) = getState st) :
    (setState st u).2 = st.listeners.map (fun l => (l, getState st)) ∧
    getState (setState st u).1 = getState st := by
  constructor
  · show st.listeners.map (fun l => (l, applyUpd u (getState st))) =
      st.listeners.map (fun l => (l, getState st))
    rw [h]
  · exact h

/-- Witness for C7 at the store with state 4 and listener 7, rewriting the
value 4. -/
theorem setState_no_dedup_witness :
    applyUpd (RUpd.value 4) (getState (Store.mk (4 : Nat) [7])) =
      getState (Store.mk (4 : Nat) [7]) ∧
    (setState (Store.mk (4 : Nat) [7]) (RUpd.value 4)).2 = [(7, 4)] ∧
    getState (setState (Store.mk (4 : Nat) [7]) (RUpd.value 4)).1 = 4 := by
  have h := setState_no_dedup (Store.mk (4 : Nat) [7]) (RUpd.value 4) rfl
  exact ⟨rfl, h.1, h.2⟩

/-- C8: calling the unsubscribe closure a second time is a no-op: the
resulting store (listener Set and state, hence all subsequent delivery)
is the one the first call produced. -/
theorem double_unsubscribe_noop (st : Store σ) (l : Nat)
    (hnd : st.listeners.Nodup) :
    unsubscribe (unsubscribe st l) l = unsubscribe st l := by
  show Store.mk st.storeState ((st.listeners.erase l).erase l) =
    Store.mk st.storeState (st.listeners.erase l)
  rw [List.erase_of_not_mem hnd.not_mem_erase]

/-- Witness for C8 at the store with state 0 and listener 3. -/
theorem double_unsubscribe_noop_witness :
    (Store.mk (0 : Nat) [3]).listeners.Nodup ∧
    unsubscribe (unsubscribe (Store.mk (0 : Nat) [3]) 3) 3 =
      unsubscribe (Store.mk (0 : Nat) [3]) 3 :=
  ⟨by decide, double_unsubscribe_noop (Store.mk (0 : Nat) [3]) 3 (by decide)⟩

/-- C9: subscribing the identical listener reference a second time is a
membership no-op (the Set enforces uniqueness), and a subsequent setState
invokes that listener exactly once. -/
theorem resubscribe_noop (st : Store σ) (l : Nat) (u : RUpd σ)
    (hnd : st.listeners.Nodup) :
    subscribe (subscribe st l) l = subscribe st l ∧
    ((setState (subscribe (subscribe st l) l) u).2.map Prod.fst).count l = 1 := by
  have hmem : l ∈ (subscribe st l).listeners := by
    by_cases hm : l ∈ st.listeners
    · simp [subscribe, hm]
    · simp [subscribe, hm]
  have hidem : subscribe (subscribe st l) l = subscribe st l := by
    show (if l ∈ (subscribe st l).listeners then subscribe st l
      else Store.mk (subscribe st l).storeState ((subscribe st l).listeners ++ [l])) =
      subscribe st l
    rw [if_pos hmem]
  refine ⟨hidem, ?_⟩
  rw [hidem]
  have hmap : ((setState (subscribe st l) u).2.map Prod.fst) =
      (subscribe st l).listeners := by
    simp [setState, Function.comp_def]
  rw [hmap]
  have hnd' : (subscribe st l).listeners.Nodup := by
    by_cases hm : l ∈ st.listeners
    · simpa [subscribe, hm] using hnd
    · simp [subscribe, hm, List.nodup_append, hnd]
  exact List.count_eq_one_of_mem hnd' hmem

/-- Witness for C9 at the fresh store with state 0, listener 42 subscribed
twice, then a write of the value 1. -/
theorem resubscribe_noop_witness :
    subscribe (subscribe (createStore (0 : Nat)) 42) 42 =
      subscribe (createStore (0 : Nat)) 42 ∧
    ((setState (subscribe (subscribe (createStore (0 : Nat)) 42) 42)
        (RUpd.value 1)).2.map Prod.fst).count 42 = 1 :=
  resubscribe_noop (createStore (0 : Nat)) 42 (RUpd.value 1) (by decide)

/-- C2 counterexample: with listeners 0 and 1 registered, state 0, and
listener 0 reentrantly calling setState(2) when it receives 1, the call
setState(1) commits 1, invokes listener 0 with 1, the reentrant call
commits 2, and the same outer pass then invokes listener 1 with 2: two
listeners of one setState's notification pass observe different values,
and listener 0's argument differs from the state committed when the call
returns. -/
theorem setState_reentrant_nonuniform :
    (runSetState behReentrant [0, 1] 2 0 (RUpd.value 1)).1 = 2 ∧
    (runSetState behReentrant [0, 1] 2 0 (RUpd.value 1)).2.1 = [(0, 1), (1, 2)] ∧
    (0, 1) ∈ (runSetState behReentrant [0, 1] 2 0 (RUpd.value 1)).2.1 ∧
    (1, 2) ∈ (runSetState behReentrant [0, 1] 2 0 (RUpd.value 1)).2.1 ∧
    (1 : Nat) ≠ 2 := by
  decide

/-- C2 amended: each listener invocation of a notification pass receives
the state most recently committed at the instant it is invoked; when no
listener reentrantly calls setState during the pass, the state after the
call is the updater's result and every listener of the pass is invoked
with exactly that committed value, so getState and all listener arguments
agree. -/
theorem setState_committed_uniform (beh : Nat → σ → List (RUpd σ))
    (L : List Nat) (fuel : Nat) (s : σ) (u : RUpd σ)
    (h : ∀ l t, beh l t = []) :
    (runSetState beh L (fuel + 1) s u).1 = applyUpd u s ∧
    (runSetState beh L (fuel + 1) s u).2.1 =
      L.map (fun l => (l, applyUpd u s)) := by
  have hn := notifyFrom_no_reentry (runSetState beh L fuel) beh h L (applyUpd u s)
  exact ⟨by simp [runSetState, hn], by simp [runSetState, hn]⟩

/-- Witness for C2 amended: two listeners, no reentrant writes, fuel 1,
writing the value 5 over state 0. -/
theorem setState_committed_uniform_witness :
    (runSetState (noReentry Nat) [3, 7] 1 0 (RUpd.value 5)).1 = 5 ∧
    (runSetState (noReentry Nat) [3, 7] 1 0 (RUpd.value 5)).2.1 =
      [(3, 5), (7, 5)] :=
  setState_committed_uniform (noReentry Nat) [3, 7] 0 0 (RUpd.value 5)
    (fun _ _ => rfl)

/-- C5: after the unsubscribe closure for a listener runs, the events of
the combined run are exactly the events the earlier writes already
produced followed by the events of the later operations, and no later
operation sequence that does not re-subscribe the listener ever invokes
it. -/
theorem unsubscribe_stops_delivery (st : Store σ) (l : Nat)
    (pre post : List (Op σ)) (hnd : st.listeners.Nodup)
    (hpost : Op.sub l ∉ post) :
    (run st (pre ++ Op.unsub l :: post)).2 =
      (run st pre).2 ++ (run (unsubscribe (run st pre).1 l) post).2 ∧
    ∀ s, (l, s) ∉ (run (unsubscribe (run st pre).1 l) post).2 := by
  have hnd1 : (run st pre).1.listeners.Nodup := nodup_run st pre hnd
  have hnotin : l ∉ (unsubscribe (run st pre).1 l).listeners :=
    hnd1.not_mem_erase
  constructor
  · rw [run_append]
    simp [run, step]
  · exact (not_mem_run_events l post (unsubscribe (run st pre).1 l)
      hnotin hpost).1

/-- Witness for C5: state 0 with listener 5, one write before the
unsubscribe and one after; the event (5, 7) (indeed any event for
listener 5) does not occur after the unsubscribe. -/
theorem unsubscribe_stops_delivery_witness :
    ((5 : Nat), (7 : Nat)) ∉
      (run (unsubscribe (run (Store.mk (0 : Nat) [5])
          [Op.set (RUpd.value 1)]).1 5) [Op.set (RUpd.value 9)]).2 :=
  (unsubscribe_stops_delivery (Store.mk (0 : Nat) [5]) 5
      [Op.set (RUpd.value 1)] [Op.set (RUpd.value 9)] (by decide)
      (by simp)).2 7

/-- C10: subscribe produces no notification event and leaves the current
state unchanged; a listener is first invoked only by a later setState. -/
theorem subscribe_frame (st : Store σ) (l : Nat) :
    getState (subscribe st l) = getState st ∧ (step st (Op.sub l)).2 = [] := by
  refine ⟨?_, rfl⟩
  by_cases hm : l ∈ st.listeners <;> simp [subscribe, getState, hm]

end ReactStore
